import Mathlib

/-!
BiblioMovil: a shallow embedding of the CSS-selector-driven multi-page
extraction routine `extract_data_with_selectors` (src/scraper_utils.py,
lines 59-182), the core specified by spec.md, together with proofs of the
testable properties stated there.

The external collaborators are modelled by their abstract contracts
(spec section 6):

* the HTML parser: a parsed document (`Doc`) is a total function from a CSS
  selector string to the ordered list of matching elements
  (`Document.selectAll`); `select_one` is its head.  An `Element` carries
  its text content and an attribute association list;
* the HTTP fetch capability: a `Network` maps a URL either to a parsed
  document (`some doc`, a completed success response whose body parses) or
  to `none` (network failure or non-success status, i.e. `requests.get` or
  `raise_for_status` raising).

Everything else is translated directly from the Python source: mode
detection (lines 101-106), list-mode row assembly (108-129), single-mode
assembly (130-147), the pagination loop with its page budget (86-91,
149-178), next-link lookup and relative-URL resolution (152-169), and the
exception semantics of the enclosing try block (181-182): any raised
exception discards the local `results` accumulator, so the model returns
`Except ExtractError (List Row)`.

The model additionally returns the ordered list of URLs the loop attempted
to fetch (the trace of `requests.get` calls); this ghost output does not
influence the result component and exists so that claims about the number
of fetches are statable.
-/

namespace BiblioMovil

/-- An HTML element, as the extractor observes one through the parser:
its text content and its attributes. -/
structure Element where
  text : String
  attrs : List (String × String)
deriving DecidableEq

/-- Attribute lookup with a default, modelling `Tag.get(name, default)`
(source lines 120 and 138: `elements[i].get(attribute_name, ...)` with the
empty string as default). -/
def Element.get (e : Element) (name default : String) : String :=
  (e.attrs.lookup name).getD default

/-- Removal of leading and trailing whitespace, modelling the Python strip
applied by `get_text(strip=True)`.  Implemented on the character list so
that it evaluates by kernel reduction. -/
def strip (s : String) : String :=
  ⟨((s.data.dropWhile Char.isWhitespace).reverse.dropWhile
      Char.isWhitespace).reverse⟩

/-- Stripped text content, modelling `Tag.get_text(strip=True)`
(source lines 123 and 141). -/
def Element.getTextStrip (e : Element) : String :=
  strip e.text

/-- Prefix test on character lists. -/
def listStartsWith : List Char → List Char → Bool
  | _, [] => true
  | [], _ :: _ => false
  | c :: cs, d :: ds => decide (c = d) && listStartsWith cs ds

/-- Prefix test on strings, modelling Python str.startswith.  Implemented
on the character lists so that it evaluates by kernel reduction. -/
def strStartsWith (s p : String) : Bool :=
  listStartsWith s.data p.data

/-- A parsed document: `soup.select(selector)` returns the ordered list of
elements matching a selector.  Modelled as a total function per the
collaborator contract of spec section 6 (`Document.selectAll(selector)`
returns an ordered sequence of elements). -/
def Doc := String → List Element

/-- First matching element, if any, modelling `soup.select_one(selector)`
(source line 153). -/
def Doc.selectOne (soup : Doc) (selector : String) : Option Element :=
  (soup selector).head?

/-- The HTTP fetch capability: `none` models `requests.get` raising or
`raise_for_status` raising on a non-success status (source lines 93-96). -/
def Network := String → Option Doc

/-- An extraction row: the Python dict `item_data`, in field order. -/
abbrev Row := List (String × String)

/-- Distinct failure causes of one extraction call.  In the Python source
every one surfaces as the line-182 re-raised exception wrapping the
underlying one:

* `fetchError url`: `requests.get(url)` or `response.raise_for_status()`
  raised (lines 93-96);
* `emptySelectors`: `list(selectors.values())[0]` raised `IndexError` on an
  empty selector map (line 104);
* `badBaseUrl url`: the scheme-and-host regex did not match `current_url`,
  so `.group(1)` raised `AttributeError` (line 162). -/
inductive ExtractError where
  | fetchError (url : String)
  | emptySelectors
  | badBaseUrl (url : String)
deriving DecidableEq

/-- The pagination configuration dict.  Optional keys are `Option`-valued so
that the `.get(key, default)` accesses of the source are modelled
faithfully. -/
structure PaginationConfig where
  enabled : Bool := false
  selector : Option String := none
  max_pages : Option Nat := none
deriving DecidableEq

/-- Selector of the next-page link, defaulting to the empty string,
modelling `pagination_config.get("selector", "")` (source line 153; the
source uses single quotes). -/
def PaginationConfig.getSelector (c : PaginationConfig) : String :=
  c.selector.getD ""

/-- Truthiness of `pagination_config and pagination_config.get("enabled",
False)` (source lines 88 and 152). -/
def paginationEnabled (pc : Option PaginationConfig) : Bool :=
  match pc with
  | some c => c.enabled
  | none => false

/-- Source lines 86-89: `max_pages` is 1 by default; when pagination is
enabled it is `pagination_config.get("max_pages", 1)`. -/
def effectiveMaxPages (pc : Option PaginationConfig) : Nat :=
  match pc with
  | some c => if c.enabled then c.max_pages.getD 1 else 1
  | none => 1

/-- Selector of the first field, if any: `list(selectors.values())[0]`
(source line 104); `none` models the `IndexError` raised on an empty
map. -/
def sampleSelector (selectors : List (String × String)) : Option String :=
  (selectors.map Prod.snd).head?

/-- Source lines 103-106: a page is a list extraction iff the first field
selector matches more than one element; `none` when the selector map is
empty (`IndexError`). -/
def is_list_extraction (soup : Doc) (selectors : List (String × String)) :
    Option Bool :=
  match sampleSelector selectors with
  | none => none
  | some sel => some (decide ((soup sel).length > 1))

/-- Source lines 118-123 and 136-141: the extracted value of one matched
element.  It is the named attribute (with the empty string as default) when
`attribute_name` is truthy, the stripped text otherwise.  The Python test
`if attribute_name:` is falsy both for `None` and for the empty string. -/
def extractValue (attribute_name : Option String) (e : Element) : String :=
  match attribute_name with
  | some a => if a.isEmpty then e.getTextStrip else e.get a ""
  | none => e.getTextStrip

/-- Source line 110: `max_items` is the maximum over all fields of the
number of elements matching that field selector (the list comprehension is
non-empty whenever this line is reached). -/
def max_items (soup : Doc) (selectors : List (String × String)) : Nat :=
  (selectors.map (fun p => (soup p.2).length)).foldl Nat.max 0

/-- Source lines 116-125 (and 134-143 at index 0): the value assigned to a
field at item index `i`.  It is the extracted value of the i-th element
matching the field selector when that element exists, the empty string
otherwise. -/
def fieldValueAt (soup : Doc) (attribute_name : Option String)
    (sel : String) (i : Nat) : String :=
  match (soup sel)[i]? with
  | some e => extractValue attribute_name e
  | none => ""

/-- Source lines 114-125: assemble `item_data` for item index `i`, one
entry per field in map order. -/
def buildItemRow (soup : Doc) (selectors : List (String × String))
    (attribute_name : Option String) (i : Nat) : Row :=
  selectors.map (fun p => (p.1, fieldValueAt soup attribute_name p.2 i))

/-- Truthiness of `any(item_data.values())` (source lines 128 and 146):
some field value is a non-empty string. -/
def anyNonEmpty (row : Row) : Bool :=
  row.any (fun p => !p.2.isEmpty)

/-- Source lines 108-129: list-mode extraction.  One candidate row per item
index in `0 .. max_items - 1`, keeping only rows with some non-empty
field. -/
def listModeRows (soup : Doc) (selectors : List (String × String))
    (attribute_name : Option String) : List Row :=
  ((List.range (max_items soup selectors)).map
    (buildItemRow soup selectors attribute_name)).filter anyNonEmpty

/-- Source lines 130-147: single-mode extraction.  One candidate row from
the first matching element of every field (`elements[0]` when `elements` is
truthy, the empty string otherwise), kept only if some field is
non-empty. -/
def singleModeRows (soup : Doc) (selectors : List (String × String))
    (attribute_name : Option String) : List Row :=
  let item_data := buildItemRow soup selectors attribute_name 0
  if anyNonEmpty item_data then [item_data] else []

/-- Source lines 101-147: process one fetched page.  Detect the mode from
the first field selector, then assemble the rows of this page; `none`
models the `IndexError` on an empty selector map. -/
def processPage (soup : Doc) (selectors : List (String × String))
    (attribute_name : Option String) : Option (List Row) :=
  match is_list_extraction soup selectors with
  | none => none
  | some true => some (listModeRows soup selectors attribute_name)
  | some false => some (singleModeRows soup selectors attribute_name)

/-- Source lines 153-156: the next-page link target.  It is the href of the
first element matching the pagination selector, provided that element
exists and its href is truthy (present and non-empty). -/
def nextHref (soup : Doc) (selector : String) : Option String :=
  match soup.selectOne selector with
  | none => none
  | some btn =>
    match btn.attrs.lookup "href" with
    | none => none
    | some h => if h.isEmpty then none else some h

/-- Source line 162: the scheme-plus-host prefix of a URL, modelling the
regex match of `https?://` followed by one or more non-slash characters at
the start of `current_url`; `none` models the regex not matching, whereupon
`.group(1)` raises `AttributeError`. -/
def schemeHost (u : String) : Option String :=
  let tryScheme (p : String) : Option String :=
    if strStartsWith u p then
      let host := (u.data.drop p.data.length).takeWhile (fun c => c ≠ '/')
      if host.isEmpty then none else some ⟨p.data ++ host⟩
    else none
  match tryScheme "https://" with
  | some r => some r
  | none => tryScheme "http://"

/-- Source line 166: `current_url.rsplit("/", 1)[0]`, i.e. everything
before the last slash, or the whole string when it contains no slash. -/
def rsplitOnceBase (u : String) : String :=
  match u.data.reverse.dropWhile (fun c => c ≠ '/') with
  | [] => u
  | _ :: before => ⟨before.reverse⟩

/-- Source lines 158-167: resolve the next-page link target against the
current URL.  A target starting with `"http"` is used as-is; one starting
with a slash is prefixed with the scheme and host of the current URL
(`none` when that extraction fails, modelling the `AttributeError`); any
other target is appended to the current URL with its last slash-separated
segment stripped. -/
def resolveNextUrl (current_url next_url : String) : Option String :=
  if strStartsWith next_url "http" then some next_url
  else if strStartsWith next_url "/" then
    match schemeHost current_url with
    | some base => some (base ++ next_url)
    | none => none
  else
    some (rsplitOnceBase current_url ++ "/" ++ next_url)

/-- One iteration of the while loop (source lines 93-178): fetch and
process the current page, then decide how the loop continues.  The result
is either a failure, or the rows of this page together with the URL of the
next page to fetch (`none` when the loop is to stop: pagination disabled,
no next-page element, or its href missing or empty). -/
def pageStep (net : Network) (selectors : List (String × String))
    (attribute_name : Option String) (pc : Option PaginationConfig)
    (current_url : String) :
    Except ExtractError (List Row × Option String) :=
  match net current_url with
  | none => .error (.fetchError current_url)
  | some soup =>
    match processPage soup selectors attribute_name with
    | none => .error .emptySelectors
    | some rows =>
      match pc with
      | some c =>
        if c.enabled then
          match nextHref soup c.getSelector with
          | some h =>
            match resolveNextUrl current_url h with
            | some nu => .ok (rows, some nu)
            | none => .error (.badBaseUrl current_url)
          | none => .ok (rows, none)
        else .ok (rows, none)
      | none => .ok (rows, none)

/-- Source lines 91-178: the `while page_count < max_pages` loop.  The fuel
argument is the remaining page budget `max_pages - page_count`; `acc` is
the `results` accumulator.  The second component of the result is the ghost
trace of URLs passed to `requests.get`, in order.  On any raised exception
the Python `results` list is discarded by the line-181 except clause, so
error branches carry no rows. -/
def extractLoop (net : Network) (selectors : List (String × String))
    (attribute_name : Option String) (pc : Option PaginationConfig) :
    String → Nat → List Row → Except ExtractError (List Row) × List String
  | _, 0, acc => (.ok acc, [])
  | current_url, fuel + 1, acc =>
    match pageStep net selectors attribute_name pc current_url with
    | .error e => (.error e, [current_url])
    | .ok (rows, none) => (.ok (acc ++ rows), [current_url])
    | .ok (rows, some nu) =>
      let r := extractLoop net selectors attribute_name pc nu fuel (acc ++ rows)
      (r.1, current_url :: r.2)

/-- Source lines 59-182: `extract_data_with_selectors(url, selectors,
attribute_name=None, pagination_config=None)`, abstracted over the fetch
capability.  Returns the extraction outcome together with the ghost trace
of attempted fetch URLs. -/
def extract_data_with_selectors (net : Network) (url : String)
    (selectors : List (String × String))
    (attribute_name : Option String := none)
    (pagination_config : Option PaginationConfig := none) :
    Except ExtractError (List Row) × List String :=
  extractLoop net selectors attribute_name pagination_config url
    (effectiveMaxPages pagination_config) []

/-- Rows contributed by one fetched URL, as `processPage` computes them
from the document that URL resolves to (empty when the fetch fails or the
selector map is empty).  Used to state that the result decomposes page by
page. -/
def pageRowsOfUrl (net : Network) (selectors : List (String × String))
    (attribute_name : Option String) (u : String) : List Row :=
  match net u with
  | none => []
  | some soup => (processPage soup selectors attribute_name).getD []

/-- The pagination selector of an optional config, the empty string when
the config is absent. -/
def paginationSelector (pc : Option PaginationConfig) : String :=
  match pc with
  | some c => c.getSelector
  | none => ""

deriving instance DecidableEq for Except

/-- A target URL that is absolute, in the sense the specification uses for
next-link resolution: it carries an explicit http or https scheme.
Spec-side notion, used only to compare the claimed resolution rule with the
implemented one. -/
def isAbsoluteHttpUrl (u : String) : Bool :=
  strStartsWith u "http://" || strStartsWith u "https://"

/-- The next-URL resolution rule exactly as the specification words it
(spec-side, for refinement comparison with `resolveNextUrl`): an already
absolute target is used as-is; a target beginning with a slash is prefixed
with the scheme and host of the current URL; any other target is resolved
against the directory of the current URL. -/
def claimedResolveNextUrl (current_url next_url : String) : Option String :=
  if isAbsoluteHttpUrl next_url then some next_url
  else if strStartsWith next_url "/" then
    (schemeHost current_url).map (fun base => base ++ next_url)
  else some (rsplitOnceBase current_url ++ "/" ++ next_url)

/-- A sample parsed page used to exercise the extractor on concrete input:
three elements match selector "t" (the third with empty text), two match
selector "a" (each carrying an href), one "n" element is the next-page
link. -/
def sampleDoc : Doc := fun s =>
  if s = "t" then [⟨" A ", []⟩, ⟨"B", []⟩, ⟨"", []⟩]
  else if s = "a" then [⟨"x", [("href", "l1")]⟩, ⟨"", [("href", "l2")]⟩]
  else if s = "n" then [⟨"next", [("href", "/p2")]⟩]
  else []

/-- A sample second page with a single heading and no next-page link. -/
def sampleDocSingle : Doc := fun s =>
  if s = "h" then [⟨" solo ", []⟩] else []

/-- A sample site with two reachable pages. -/
def sampleNet : Network := fun u =>
  if u = "http://s/p1" then some sampleDoc
  else if u = "http://s/p2" then some sampleDocSingle
  else none

/-- A sample site where only the first page is reachable: fetching any
other URL fails. -/
def sampleNetFail : Network := fun u =>
  if u = "http://s/p1" then some sampleDoc else none

/-- A sample pagination configuration: enabled, next-link selector "n",
at most three pages. -/
def samplePagination : PaginationConfig :=
  { enabled := true, selector := some "n", max_pages := some 3 }

end BiblioMovil

namespace BiblioMovil

lemma buildItemRow_keys (soup : Doc) (selectors : List (String × String))
    (attribute_name : Option String) (i : Nat) :
    (buildItemRow soup selectors attribute_name i).map Prod.fst =
      selectors.map Prod.fst := by
  simp [buildItemRow, List.map_map]

lemma mem_buildItemRow {soup : Doc} {selectors : List (String × String)}
    {attribute_name : Option String} {i : Nat} {fv : String × String}
    (h : fv ∈ buildItemRow soup selectors attribute_name i) :
    ∃ sel, (fv.1, sel) ∈ selectors ∧
      fv.2 = fieldValueAt soup attribute_name sel i := by
  rcases List.mem_map.1 h with ⟨p, hp, rfl⟩
  exact ⟨p.2, by simpa using hp, rfl⟩

lemma buildItemRow_lookup (soup : Doc) (attribute_name : Option String)
    (i : Nat) :
    ∀ (selectors : List (String × String)) (fn sel : String),
      (selectors.map Prod.fst).Nodup → (fn, sel) ∈ selectors →
      List.lookup fn (buildItemRow soup selectors attribute_name i) =
        some (fieldValueAt soup attribute_name sel i) := by
  intro selectors
  induction selectors with
  | nil => intro fn sel _ hmem; cases hmem
  | cons p rest ih =>
    intro fn sel hnd hmem
    rcases List.mem_cons.1 hmem with heq | hmem'
    · rw [heq.symm]  -- hmm
      simp [buildItemRow, List.lookup]
    · have hne : fn ≠ p.1 := fun hfn =>
        (List.nodup_cons.1 hnd).1 (List.mem_map.2 ⟨(fn, sel), hmem', hfn⟩)
      have hrec := ih fn sel (List.nodup_cons.1 hnd).2 hmem'
      simpa [buildItemRow, List.lookup, beq_false_of_ne hne] using hrec

lemma fieldValueAt_empty_or_mem (soup : Doc) (attribute_name : Option String)
    (sel : String) (i : Nat) :
    fieldValueAt soup attribute_name sel i = "" ∨
      ∃ e ∈ soup sel,
        fieldValueAt soup attribute_name sel i = extractValue attribute_name e := by
  unfold fieldValueAt
  cases h : (soup sel)[i]? with
  | none => exact Or.inl rfl
  | some e => exact Or.inr ⟨e, List.getElem?_mem h, rfl⟩

lemma foldl_max_init_le (l : List Nat) : ∀ a : Nat, a ≤ l.foldl Nat.max a := by
  induction l with
  | nil => intro a; exact Nat.le_refl a
  | cons x xs ih =>
    intro a
    exact Nat.le_trans (Nat.le_max_left a x) (ih (Nat.max a x))

lemma foldl_max_mem_le (l : List Nat) :
    ∀ (a x : Nat), x ∈ l → x ≤ l.foldl Nat.max a := by
  induction l with
  | nil => intro a x hx; cases hx
  | cons y ys ih =>
    intro a x hx
    rcases List.mem_cons.1 hx with rfl | hx'
    · exact Nat.le_trans (Nat.le_max_right a x) (foldl_max_init_le ys (Nat.max a x))
    · exact ih (Nat.max a y) x hx'

lemma foldl_max_eq_init_or_mem (l : List Nat) :
    ∀ a : Nat, l.foldl Nat.max a = a ∨ l.foldl Nat.max a ∈ l := by
  induction l with
  | nil => intro a; exact Or.inl rfl
  | cons x xs ih =>
    intro a
    rw [List.foldl_cons]
    rcases ih (Nat.max a x) with h | h
    · rw [h]
      rcases Nat.le_total x a with h' | h'
      · exact Or.inl (Nat.max_eq_left h')
      · have hx : Nat.max a x = x := Nat.max_eq_right h'
        exact Or.inr (by rw [hx]; exact List.mem_cons_self x xs)
    · exact Or.inr (List.mem_cons_of_mem x h)

lemma processPage_cons (soup : Doc) (fn0 sel0 : String)
    (rest : List (String × String)) (attribute_name : Option String) :
    processPage soup ((fn0, sel0) :: rest) attribute_name =
      some (if 1 < (soup sel0).length
            then listModeRows soup ((fn0, sel0) :: rest) attribute_name
            else singleModeRows soup ((fn0, sel0) :: rest) attribute_name) := by
  by_cases h : 1 < (soup sel0).length <;>
    simp [processPage, is_list_extraction, sampleSelector, h]

lemma processPage_isSome (soup : Doc) (attribute_name : Option String)
    {selectors : List (String × String)} (h : selectors ≠ []) :
    ∃ rows, processPage soup selectors attribute_name = some rows := by
  match selectors, h with
  | (fn0, sel0) :: rest, _ =>
    rw [processPage_cons]
    exact ⟨_, rfl⟩

lemma mem_of_processPage {soup : Doc} {selectors : List (String × String)}
    {attribute_name : Option String} {rows : List Row} {row : Row}
    (hp : processPage soup selectors attribute_name = some rows)
    (hr : row ∈ rows) :
    (∃ i, row = buildItemRow soup selectors attribute_name i) ∧
      anyNonEmpty row = true := by
  unfold processPage at hp
  cases his : is_list_extraction soup selectors with
  | none => rw [his] at hp; cases hp
  | some b =>
    rw [his] at hp
    cases b with
    | true =>
      cases hp
      rcases List.mem_filter.1 hr with ⟨hmem, hne⟩
      rcases List.mem_map.1 hmem with ⟨i, _, rfl⟩
      exact ⟨⟨i, rfl⟩, hne⟩
    | false =>
      cases hp
      by_cases hne : anyNonEmpty (buildItemRow soup selectors attribute_name 0) = true
      · simp only [singleModeRows, hne, if_true] at hr
        rcases List.mem_singleton.1 hr with rfl
        exact ⟨⟨0, rfl⟩, hne⟩
      · simp only [singleModeRows, hne, if_false] at hr
        cases hr

lemma pageStep_fetchFail {net : Network} (selectors : List (String × String))
    (attribute_name : Option String) (pc : Option PaginationConfig)
    {url : String} (h : net url = none) :
    pageStep net selectors attribute_name pc url = .error (.fetchError url) := by
  unfold pageStep
  rw [h]

lemma pageStep_ok {net : Network} {selectors : List (String × String)}
    {attribute_name : Option String} {pc : Option PaginationConfig}
    {url : String} {rows : List Row} {onext : Option String}
    (h : pageStep net selectors attribute_name pc url = .ok (rows, onext)) :
    ∃ soup, net url = some soup ∧
      processPage soup selectors attribute_name = some rows := by
  unfold pageStep at h
  split at h
  · cases h
  · rename_i soup hnet
    split at h
    · cases h
    · rename_i rows' hpp
      refine ⟨soup, hnet, ?_⟩
      split at h
      · split at h
        · split at h
          · split at h
            · cases h; exact hpp
            · cases h
          · cases h; exact hpp
        · cases h; exact hpp
      · cases h; exact hpp

lemma pageStep_next {net : Network} {selectors : List (String × String)}
    {attribute_name : Option String} {pc : Option PaginationConfig}
    {url : String} {rows : List Row} {nu : String}
    (h : pageStep net selectors attribute_name pc url = .ok (rows, some nu)) :
    ∃ c soup hh, pc = some c ∧ c.enabled = true ∧ net url = some soup ∧
      processPage soup selectors attribute_name = some rows ∧
      nextHref soup c.getSelector = some hh ∧
      resolveNextUrl url hh = some nu := by
  unfold pageStep at h
  split at h
  · cases h
  · rename_i soup hnet
    split at h
    · cases h
    · rename_i rows' hpp
      split at h
      · rename_i c
        split at h
        · rename_i hc
          split at h
          · rename_i hh hnh
            split at h
            · rename_i nu' hru
              cases h
              exact ⟨c, soup, hh, rfl, hc, hnet, hpp, hnh, hru⟩
            · cases h
          · cases h
        · cases h
      · cases h

lemma pageRowsOfUrl_of_pageStep {net : Network}
    {selectors : List (String × String)} {attribute_name : Option String}
    {pc : Option PaginationConfig} {url : String} {rows : List Row}
    {onext : Option String}
    (h : pageStep net selectors attribute_name pc url = .ok (rows, onext)) :
    pageRowsOfUrl net selectors attribute_name url = rows := by
  rcases pageStep_ok h with ⟨soup, hnet, hpp⟩
  unfold pageRowsOfUrl
  rw [hnet]
  simp [hpp]

lemma extractLoop_zero (net : Network) (selectors : List (String × String))
    (attribute_name : Option String) (pc : Option PaginationConfig)
    (url : String) (acc : List Row) :
    extractLoop net selectors attribute_name pc url 0 acc = (.ok acc, []) := rfl

lemma extractLoop_succ (net : Network) (selectors : List (String × String))
    (attribute_name : Option String) (pc : Option PaginationConfig)
    (url : String) (fuel : Nat) (acc : List Row) :
    extractLoop net selectors attribute_name pc url (fuel + 1) acc =
      match pageStep net selectors attribute_name pc url with
      | .error e => (.error e, [url])
      | .ok (rows, none) => (.ok (acc ++ rows), [url])
      | .ok (rows, some nu) =>
        let r := extractLoop net selectors attribute_name pc nu fuel (acc ++ rows)
        (r.1, url :: r.2) := rfl

lemma extractLoop_trace_length (net : Network)
    (selectors : List (String × String)) (attribute_name : Option String)
    (pc : Option PaginationConfig) :
    ∀ (fuel : Nat) (url : String) (acc : List Row),
      (extractLoop net selectors attribute_name pc url fuel acc).2.length ≤ fuel := by
  intro fuel
  induction fuel with
  | zero => intro url acc; simp [extractLoop_zero]
  | succ n ih =>
    intro url acc
    rw [extractLoop_succ]
    cases hps : pageStep net selectors attribute_name pc url with
    | error e => simp
    | ok p =>
      rcases p with ⟨rows, onext⟩
      cases onext with
      | none => simp
      | some nu =>
        simpa using ih nu (acc ++ rows)

lemma extractLoop_trace_head (net : Network)
    (selectors : List (String × String)) (attribute_name : Option String)
    (pc : Option PaginationConfig) (url : String) (fuel : Nat)
    (acc : List Row) :
    ∃ t, (extractLoop net selectors attribute_name pc url (fuel + 1) acc).2 =
      url :: t := by
  rw [extractLoop_succ]
  cases hps : pageStep net selectors attribute_name pc url with
  | error e => exact ⟨[], rfl⟩
  | ok p =>
    rcases p with ⟨rows, onext⟩
    cases onext with
    | none => exact ⟨[], rfl⟩
    | some nu => exact ⟨_, rfl⟩

lemma extractLoop_ok_rows (net : Network)
    (selectors : List (String × String)) (attribute_name : Option String)
    (pc : Option PaginationConfig) :
    ∀ (fuel : Nat) (url : String) (acc rows : List Row),
      (extractLoop net selectors attribute_name pc url fuel acc).1 = .ok rows →
      rows = acc ++
        ((extractLoop net selectors attribute_name pc url fuel acc).2).flatMap
          (pageRowsOfUrl net selectors attribute_name) := by
  intro fuel
  induction fuel with
  | zero =>
    intro url acc rows h
    simp [extractLoop_zero] at h ⊢
    exact h.symm
  | succ n ih =>
    intro url acc rows h
    rw [extractLoop_succ] at h ⊢
    cases hps : pageStep net selectors attribute_name pc url with
    | error e => rw [hps] at h; simp at h
    | ok p =>
      rcases p with ⟨rows', onext⟩
      have hpr := pageRowsOfUrl_of_pageStep hps
      cases onext with
      | none =>
        rw [hps] at h
        simp at h
        simp [hpr]
        exact h.symm
      | some nu =>
        rw [hps] at h
        simp at h
        have hrec := ih nu (acc ++ rows') rows h
        simp [hpr, hrec, List.append_assoc]

lemma extractLoop_trace_step (net : Network)
    (selectors : List (String × String)) (attribute_name : Option String)
    (pc : Option PaginationConfig) :
    ∀ (fuel : Nat) (url : String) (acc : List Row) (j : Nat) (u u' : String),
      (extractLoop net selectors attribute_name pc url fuel acc).2[j]? = some u →
      (extractLoop net selectors attribute_name pc url fuel acc).2[j + 1]? = some u' →
      paginationEnabled pc = true ∧
      ∃ soup hh, net u = some soup ∧
        nextHref soup (paginationSelector pc) = some hh ∧
        resolveNextUrl u hh = some u' := by
  intro fuel
  induction fuel with
  | zero => intro url acc j u u' h1 h2; simp [extractLoop_zero] at h1
  | succ n ih =>
    intro url acc j u u' h1 h2
    rw [extractLoop_succ] at h1 h2
    cases hps : pageStep net selectors attribute_name pc url with
    | error e =>
      rw [hps] at h2
      simp at h2
    | ok p =>
      rcases p with ⟨rows, onext⟩
      cases onext with
      | none =>
        rw [hps] at h2
        simp at h2
      | some nu =>
        rw [hps] at h1 h2
        simp only [List.getElem?_cons_succ] at h2
        cases j with
        | zero =>
          simp at h1
          rcases pageStep_next hps with ⟨c, soup, hh, hpc, hc, hnet, _, hnh, hru⟩
          have hu : u = url := h1.symm
          subst hu
          refine ⟨?_, soup, hh, hnet, ?_, ?_⟩
          · rw [hpc]; simp [paginationEnabled, hc]
          · rw [hpc]; simpa [paginationSelector] using hnh
          · cases n with
            | zero =>
              simp [extractLoop_zero] at h2
            | succ m =>
              rcases extractLoop_trace_head net selectors attribute_name pc nu m
                (acc ++ rows) with ⟨t, ht⟩
              rw [ht] at h2
              simp at h2
              rw [hru, h2]
        | succ j' =>
          simp only [List.getElem?_cons_succ] at h1
          exact ih nu (acc ++ rows) j' u u' h1 h2

lemma extractLoop_fetch_fail (net : Network)
    (selectors : List (String × String)) (attribute_name : Option String)
    (pc : Option PaginationConfig) :
    ∀ (fuel : Nat) (url : String) (acc : List Row) (j : Nat) (u : String),
      (extractLoop net selectors attribute_name pc url fuel acc).2[j]? = some u →
      net u = none →
      (extractLoop net selectors attribute_name pc url fuel acc).1 =
        .error (.fetchError u) ∧
      j + 1 = (extractLoop net selectors attribute_name pc url fuel acc).2.length := by
  intro fuel
  induction fuel with
  | zero => intro url acc j u h1 _; simp [extractLoop_zero] at h1
  | succ n ih =>
    intro url acc j u h1 hnet
    rw [extractLoop_succ] at h1 ⊢
    cases hps : pageStep net selectors attribute_name pc url with
    | error e =>
      rw [hps] at h1
      cases j with
      | zero =>
        simp at h1
        subst h1
        have := pageStep_fetchFail selectors attribute_name pc hnet
        rw [hps] at this
        cases this
        simp
      | succ j' => simp at h1
    | ok p =>
      rcases p with ⟨rows, onext⟩
      cases onext with
      | none =>
        rw [hps] at h1
        cases j with
        | zero =>
          simp at h1
          subst h1
          rcases pageStep_ok hps with ⟨soup, hs, _⟩
          rw [hnet] at hs
          cases hs
        | succ j' => simp at h1
      | some nu =>
        rw [hps] at h1
        cases j with
        | zero =>
          simp at h1
          subst h1
          rcases pageStep_ok hps with ⟨soup, hs, _⟩
          rw [hnet] at hs
          cases hs
        | succ j' =>
          simp only [List.getElem?_cons_succ] at h1
          have hrec := ih nu (acc ++ rows) j' u h1 hnet
          simpa using hrec

lemma pageStep_disabled (net : Network)
    (selectors : List (String × String)) (attribute_name : Option String)
    {pc : Option PaginationConfig} {url : String} {rows : List Row}
    {nu : String} (hd : paginationEnabled pc = false) :
    pageStep net selectors attribute_name pc url ≠ .ok (rows, some nu) := by
  intro h
  rcases pageStep_next h with ⟨c, soup, hh, hpc, hc, _⟩
  subst hpc
  simp [paginationEnabled, hc] at hd

lemma extractLoop_disabled_trace (net : Network)
    (selectors : List (String × String)) (attribute_name : Option String)
    {pc : Option PaginationConfig} (url : String) (acc : List Row)
    (hd : paginationEnabled pc = false) :
    (extractLoop net selectors attribute_name pc url 1 acc).2 = [url] := by
  rw [extractLoop_succ]
  cases hps : pageStep net selectors attribute_name pc url with
  | error e => rfl
  | ok p =>
    rcases p with ⟨rows, onext⟩
    cases onext with
    | none => rfl
    | some nu => exact absurd hps (pageStep_disabled net selectors attribute_name hd)

/-- C1: for every processed page, the extractor classifies the page as list
mode iff the selector of the first field of the caller-supplied selector
map matches more than one element on that page, and as single mode
otherwise (first and second conjuncts); the classification is recomputed
independently for each page of a paginated extraction: on a successful run
the result is the concatenation, over the fetched pages in order, of the
rows `processPage` computes from that page document alone (third
conjunct). -/
theorem mode_is_list_iff_first_field_multi (fn0 sel0 : String)
    (rest : List (String × String)) (attribute_name : Option String) :
    (∀ soup : Doc,
      is_list_extraction soup ((fn0, sel0) :: rest) =
        some (decide (1 < (soup sel0).length))) ∧
    (∀ soup : Doc,
      processPage soup ((fn0, sel0) :: rest) attribute_name =
        some (if 1 < (soup sel0).length
              then listModeRows soup ((fn0, sel0) :: rest) attribute_name
              else singleModeRows soup ((fn0, sel0) :: rest) attribute_name)) ∧
    (∀ (net : Network) (url : String) (pc : Option PaginationConfig)
        (rows : List Row),
      (extract_data_with_selectors net url ((fn0, sel0) :: rest)
          attribute_name pc).1 = .ok rows →
      rows = ((extract_data_with_selectors net url ((fn0, sel0) :: rest)
          attribute_name pc).2).flatMap
        (pageRowsOfUrl net ((fn0, sel0) :: rest) attribute_name)) := by
  refine ⟨fun soup => rfl, fun soup => processPage_cons soup fn0 sel0 rest attribute_name, ?_⟩
  intro net url pc rows h
  have hdec := extractLoop_ok_rows net ((fn0, sel0) :: rest) attribute_name pc
    (effectiveMaxPages pc) url [] rows h
  simpa using hdec

/-- C1 witness: on the sample site, with a one-field selector map, the
successful result equals the page-by-page decomposition. -/
theorem mode_is_list_iff_first_field_multi_witness :
    [[("t", "A")], [("t", "B")]] =
      ((extract_data_with_selectors sampleNet "http://s/p1"
          [("t", "t")] none none).2).flatMap
        (pageRowsOfUrl sampleNet [("t", "t")] none) :=
  (mode_is_list_iff_first_field_multi "t" "t" [] none).2.2 sampleNet
    "http://s/p1" none [[("t", "A")], [("t", "B")]] (by decide)

/-- C2: on a list-mode page the extractor builds one candidate row per index
in `0 .. max_items - 1` and keeps the non-empty ones (first conjunct), where
`max_items` is the maximum over all fields of that field selector match
count (second and third conjuncts); the i-th row value of a field is the
extracted value of the i-th element matching that field selector when it
exists and the empty string otherwise (fourth conjunct). -/
theorem list_mode_row_assembly (soup : Doc) (fn0 sel0 : String)
    (rest : List (String × String)) (attribute_name : Option String)
    (hmode : 1 < (soup sel0).length) :
    processPage soup ((fn0, sel0) :: rest) attribute_name =
      some (((List.range (max_items soup ((fn0, sel0) :: rest))).map
        (buildItemRow soup ((fn0, sel0) :: rest) attribute_name)).filter
          anyNonEmpty) ∧
    (∀ p ∈ (fn0, sel0) :: rest,
      (soup p.2).length ≤ max_items soup ((fn0, sel0) :: rest)) ∧
    (∃ p ∈ (fn0, sel0) :: rest,
      max_items soup ((fn0, sel0) :: rest) = (soup p.2).length) ∧
    (∀ (i : Nat) (fn sel : String),
      (((fn0, sel0) :: rest).map Prod.fst).Nodup →
      (fn, sel) ∈ (fn0, sel0) :: rest →
      List.lookup fn (buildItemRow soup ((fn0, sel0) :: rest) attribute_name i) =
        some (fieldValueAt soup attribute_name sel i)) := by
  refine ⟨?_, ?_, ?_, ?_⟩
  · rw [processPage_cons, if_pos hmode]
    rfl
  · intro p hp
    exact foldl_max_mem_le _ 0 _ (List.mem_map.2 ⟨p, hp, rfl⟩)
  · rcases foldl_max_eq_init_or_mem
      (((fn0, sel0) :: rest).map (fun p => (soup p.2).length)) 0 with h | h
    · refine ⟨(fn0, sel0), List.mem_cons_self _ _, ?_⟩
      have hle := foldl_max_mem_le
        (((fn0, sel0) :: rest).map (fun p => (soup p.2).length)) 0
        ((soup sel0).length)
        (List.mem_map.2 ⟨(fn0, sel0), List.mem_cons_self _ _, rfl⟩)
      unfold max_items
      omega
    · rcases List.mem_map.1 h with ⟨p, hp, he⟩
      exact ⟨p, hp, he.symm⟩
  · intro i fn sel hnd hmem
    exact buildItemRow_lookup soup attribute_name i _ fn sel hnd hmem

/-- C2 witness: on the sample list-mode page, the "a" field of the row at
index 1 is the value extracted from the second element matching the "a"
selector, here the empty string. -/
theorem list_mode_row_assembly_witness :
    List.lookup "a" (buildItemRow sampleDoc [("t", "t"), ("a", "a")] none 1) =
      some "" :=
  ((list_mode_row_assembly sampleDoc "t" "t" [("a", "a")] none
      (by decide)).2.2.2 1 "a" "a" (by decide) (by decide)).trans (by decide)

/-- C3: every row of a successful extraction, in both modes and on every
page, carries exactly the field names of the selector map as its keys (in
map order, hence also as a set), and has at least one non-empty field
value. -/
theorem row_schema_and_nonempty (net : Network) (url : String)
    (selectors : List (String × String)) (attribute_name : Option String)
    (pc : Option PaginationConfig) (rows : List Row) (row : Row)
    (hok : (extract_data_with_selectors net url selectors attribute_name pc).1 =
      .ok rows)
    (hrow : row ∈ rows) :
    row.map Prod.fst = selectors.map Prod.fst ∧
    ∃ fv ∈ row, fv.2 ≠ "" := by
  have hdec := extractLoop_ok_rows net selectors attribute_name pc
    (effectiveMaxPages pc) url [] rows hok
  rw [hdec] at hrow
  simp only [List.nil_append, List.mem_flatMap] at hrow
  rcases hrow with ⟨u, _, hpr⟩
  unfold pageRowsOfUrl at hpr
  cases hnet : net u with
  | none => rw [hnet] at hpr; cases hpr
  | some soup =>
    rw [hnet] at hpr
    simp only [] at hpr
    cases hpp : processPage soup selectors attribute_name with
    | none => rw [hpp] at hpr; cases hpr
    | some prows =>
      rw [hpp] at hpr
      simp only [Option.getD_some] at hpr
      rcases mem_of_processPage hpp hpr with ⟨⟨i, rfl⟩, hne⟩
      refine ⟨buildItemRow_keys soup selectors attribute_name i, ?_⟩
      rcases List.any_eq_true.1 hne with ⟨fv, hfv, hv⟩
      refine ⟨fv, hfv, ?_⟩
      intro hcontra
      rw [hcontra] at hv
      simp at hv
      exact absurd hv (by decide)

/-- C3 witness: on the sample site, the second returned row has key
sequence ["t", "a"] and the non-empty value "B". -/
theorem row_schema_and_nonempty_witness :
    [("t", "B"), ("a", "")].map Prod.fst = [("t", "t"), ("a", "a")].map Prod.fst ∧
    ∃ fv ∈ [("t", "B"), ("a", "")], fv.2 ≠ "" :=
  row_schema_and_nonempty sampleNet "http://s/p1" [("t", "t"), ("a", "a")]
    none none [[("t", "A"), ("a", "x")], [("t", "B"), ("a", "")]]
    [("t", "B"), ("a", "")] (by decide) (by decide)

/-- C4: the number of page fetches of one extraction call never exceeds the
effective page budget, which is `max_pages` when pagination is enabled and
1 otherwise (first conjunct); exactly one fetch, of the starting URL,
occurs when the pagination config is absent or disabled, even if a
next-page link exists on the page (second conjunct); and whenever a further
page is fetched after page j, page j had an element matching the
pagination selector with a usable link target, so the loop stops, before
the budget is reached, on the first page without one (third conjunct). -/
theorem page_fetch_bounds (net : Network) (url : String)
    (selectors : List (String × String)) (attribute_name : Option String)
    (pc : Option PaginationConfig) :
    (extract_data_with_selectors net url selectors attribute_name pc).2.length ≤
      effectiveMaxPages pc ∧
    (paginationEnabled pc = false →
      (extract_data_with_selectors net url selectors attribute_name pc).2 =
        [url]) ∧
    (∀ (j : Nat) (u : String),
      (extract_data_with_selectors net url selectors attribute_name pc).2[j]? =
        some u →
      j + 1 <
        (extract_data_with_selectors net url selectors attribute_name pc).2.length →
      ∃ soup hh, net u = some soup ∧
        nextHref soup (paginationSelector pc) = some hh) := by
  refine ⟨extractLoop_trace_length net selectors attribute_name pc _ url [],
    ?_, ?_⟩
  · intro hd
    have hmp : effectiveMaxPages pc = 1 := by
      cases pc with
      | none => rfl
      | some c =>
        have : c.enabled = false := by simpa [paginationEnabled] using hd
        simp [effectiveMaxPages, this]
    unfold extract_data_with_selectors
    rw [hmp]
    exact extractLoop_disabled_trace net selectors attribute_name url [] hd
  · intro j u h1 h2
    have h2' : (extract_data_with_selectors net url selectors attribute_name
        pc).2[j + 1]? =
        some ((extract_data_with_selectors net url selectors attribute_name
          pc).2[j + 1]) :=
      List.getElem?_eq_getElem h2
    rcases extractLoop_trace_step net selectors attribute_name pc
      (effectiveMaxPages pc) url [] j u _ h1 h2' with ⟨_, soup, hh, hnet, hnh, _⟩
    exact ⟨soup, hh, hnet, hnh⟩

/-- C4 witness: on the sample paginated run, a second page is fetched and
the first page indeed carries a next-page link. -/
theorem page_fetch_bounds_witness :
    ∃ soup hh, sampleNet "http://s/p1" = some soup ∧
      nextHref soup (paginationSelector (some samplePagination)) = some hh :=
  (page_fetch_bounds sampleNet "http://s/p1" [("t", "t")] none
      (some samplePagination)).2.2 0 "http://s/p1" (by decide) (by decide)

/-- C5 counterexample: the code tests `startswith("http")`, not
absoluteness.  The target "httpfoo" carries no scheme at all, so it is not
absolute and does not begin with a slash; the claimed rule resolves it
against the directory of the current page, but the code uses it as-is. -/
theorem resolve_rule_counterexample :
    resolveNextUrl "https://example.com/blog/page1" "httpfoo" =
      some "httpfoo" ∧
    claimedResolveNextUrl "https://example.com/blog/page1" "httpfoo" =
      some "https://example.com/blog/httpfoo" ∧
    resolveNextUrl "https://example.com/blog/page1" "httpfoo" ≠
      claimedResolveNextUrl "https://example.com/blog/page1" "httpfoo" := by
  refine ⟨by decide, by decide, by decide⟩

/-- C5 (amended): the next fetch URL is resolved from the link target as
follows — a target beginning with "http" (which includes every absolute
http and https URL) is used as-is; a target beginning with a slash is
prefixed with the scheme and host of the current page URL; any other
target is appended to the current page URL with its last slash-separated
segment stripped.  The two examples of the claim hold, and consecutive
fetches of the pagination loop are related exactly by this resolution of
the next-link href. -/
theorem resolve_rule_amended :
    (∀ current t : String, strStartsWith t "http" = true →
      resolveNextUrl current t = some t) ∧
    (∀ current t base : String, strStartsWith t "http" = false →
      strStartsWith t "/" = true → schemeHost current = some base →
      resolveNextUrl current t = some (base ++ t)) ∧
    (∀ current t : String, strStartsWith t "http" = false →
      strStartsWith t "/" = false →
      resolveNextUrl current t =
        some (rsplitOnceBase current ++ "/" ++ t)) ∧
    resolveNextUrl "https://example.com/blog/page1" "/blog/page2" =
      some "https://example.com/blog/page2" ∧
    resolveNextUrl "https://example.com/blog/page1" "page3.html" =
      some "https://example.com/blog/page3.html" ∧
    (∀ (net : Network) (selectors : List (String × String))
        (attribute_name : Option String) (pc : Option PaginationConfig)
        (url : String) (j : Nat) (u u' : String),
      (extract_data_with_selectors net url selectors attribute_name pc).2[j]? =
        some u →
      (extract_data_with_selectors net url selectors attribute_name
        pc).2[j + 1]? = some u' →
      ∃ soup hh, net u = some soup ∧
        nextHref soup (paginationSelector pc) = some hh ∧
        resolveNextUrl u hh = some u') := by
  refine ⟨?_, ?_, ?_, by decide, by decide, ?_⟩
  · intro current t h
    simp [resolveNextUrl, h]
  · intro current t base h1 h2 h3
    simp [resolveNextUrl, h1, h2, h3]
  · intro current t h1 h2
    simp [resolveNextUrl, h1, h2]
  · intro net selectors attribute_name pc url j u u' h1 h2
    rcases extractLoop_trace_step net selectors attribute_name pc
      (effectiveMaxPages pc) url [] j u u' h1 h2 with ⟨_, soup, hh, hnet, hnh, hru⟩
    exact ⟨soup, hh, hnet, hnh, hru⟩

/-- C5 witness: the as-is case of the amended rule at a concrete target
with a scheme. -/
theorem resolve_rule_amended_witness :
    resolveNextUrl "http://s/p1" "http://s/next" = some "http://s/next" :=
  resolve_rule_amended.1 "http://s/p1" "http://s/next" (by decide)

/-- C6: when an attribute name is supplied (a non-empty name, Python
truthiness), the extracted value of an element is the value of that named
attribute, with the empty string as default, not its text (first
conjunct); when omitted, it is the stripped text content (second
conjunct); consequently every non-empty field value of every returned row
is the extracted value of some element matching that field selector on
some fetched page (third conjunct). -/
theorem attribute_vs_text_values (net : Network) (url : String)
    (selectors : List (String × String)) (pc : Option PaginationConfig) :
    (∀ (a : String) (e : Element), a ≠ "" →
      extractValue (some a) e = (e.attrs.lookup a).getD "") ∧
    (∀ e : Element, extractValue none e = strip e.text) ∧
    (∀ (attribute_name : Option String) (rows : List Row) (row : Row)
        (fv : String × String),
      (extract_data_with_selectors net url selectors attribute_name pc).1 =
        .ok rows →
      row ∈ rows → fv ∈ row → fv.2 ≠ "" →
      ∃ u soup sel e,
        u ∈ (extract_data_with_selectors net url selectors attribute_name
          pc).2 ∧
        net u = some soup ∧ (fv.1, sel) ∈ selectors ∧ e ∈ soup sel ∧
        fv.2 = extractValue attribute_name e) := by
  refine ⟨?_, fun e => rfl, ?_⟩
  · intro a e ha
    have hae : a.isEmpty = false := by
      cases hh : a.isEmpty with
      | false => rfl
      | true => exact absurd ((String.isEmpty_iff a).1 hh) ha
    simp [extractValue, Element.get, hae]
  · intro attribute_name rows row fv hok hrow hfv hne
    have hdec := extractLoop_ok_rows net selectors attribute_name pc
      (effectiveMaxPages pc) url [] rows hok
    rw [hdec] at hrow
    simp only [List.nil_append, List.mem_flatMap] at hrow
    rcases hrow with ⟨u, hu, hpr⟩
    unfold pageRowsOfUrl at hpr
    cases hnet : net u with
    | none => rw [hnet] at hpr; cases hpr
    | some soup =>
      rw [hnet] at hpr
      simp only [] at hpr
      cases hpp : processPage soup selectors attribute_name with
      | none => rw [hpp] at hpr; cases hpr
      | some prows =>
        rw [hpp] at hpr
        simp only [Option.getD_some] at hpr
        rcases mem_of_processPage hpp hpr with ⟨⟨i, rfl⟩, _⟩
        rcases mem_buildItemRow hfv with ⟨sel, hmem, hval⟩
        rcases fieldValueAt_empty_or_mem soup attribute_name sel i with
          hempty | ⟨e, hemem, hveq⟩
        · rw [hempty] at hval
          exact absurd hval hne
        · exact ⟨u, soup, sel, e, hu, hnet, hmem, hemem, hval.trans hveq⟩

/-- C6 witness: attribute mode reads the href attribute of a concrete
element, not its text. -/
theorem attribute_vs_text_values_witness :
    extractValue (some "href") ⟨"x", [("href", "l1")]⟩ = "l1" :=
  ((attribute_vs_text_values sampleNet "http://s/p1" [] none).1 "href"
      ⟨"x", [("href", "l1")]⟩ (by decide)).trans (by decide)

/-- C7: if the fetch of any attempted page fails, the whole extraction call
fails with the fetch error carrying that attempted URL (first and second
conjuncts: the result is that error, hence never a row list — rows already
assembled from earlier pages are discarded), and the failing fetch is the
last one attempted (third conjunct). -/
theorem fetch_failure_aborts (net : Network) (url : String)
    (selectors : List (String × String)) (attribute_name : Option String)
    (pc : Option PaginationConfig) (j : Nat) (u : String)
    (htrace : (extract_data_with_selectors net url selectors attribute_name
      pc).2[j]? = some u)
    (hfail : net u = none) :
    (extract_data_with_selectors net url selectors attribute_name pc).1 =
      .error (.fetchError u) ∧
    (∀ rows : List Row,
      (extract_data_with_selectors net url selectors attribute_name pc).1 ≠
        .ok rows) ∧
    j + 1 = (extract_data_with_selectors net url selectors attribute_name
      pc).2.length := by
  have hmain := extractLoop_fetch_fail net selectors attribute_name pc
    (effectiveMaxPages pc) url [] j u htrace hfail
  refine ⟨hmain.1, ?_, hmain.2⟩
  intro rows hok
  have hok' : (extractLoop net selectors attribute_name pc url
      (effectiveMaxPages pc) []).1 = Except.ok rows := hok
  rw [hmain.1] at hok'
  cases hok'

/-- C7 witness: on the sample site where page 2 is unreachable, the
paginated run fails with the fetch error for page 2 and returns no rows,
although page 1 produced rows. -/
theorem fetch_failure_aborts_witness :
    (extract_data_with_selectors sampleNetFail "http://s/p1" [("t", "t")]
      none (some samplePagination)).1 =
      .error (.fetchError "http://s/p2") :=
  (fetch_failure_aborts sampleNetFail "http://s/p1" [("t", "t")] none
    (some samplePagination) 1 "http://s/p2" (by decide) rfl).1

lemma pageStep_empty_selectors (net : Network)
    (attribute_name : Option String) (pc : Option PaginationConfig)
    (url : String) :
    pageStep net [] attribute_name pc url =
      match net url with
      | none => .error (.fetchError url)
      | some _ => .error .emptySelectors := by
  unfold pageStep
  cases hnet : net url with
  | none => rfl
  | some soup => rfl

/-- C8 counterexample: with an empty selector map the extraction does fail,
but only after the first page has been fetched — the ghost fetch trace is
not empty, refuting the claim that the failure precedes all network
activity. -/
theorem empty_selectors_counterexample :
    (extract_data_with_selectors sampleNet "http://s/p1" [] none none).1 =
      .error .emptySelectors ∧
    (extract_data_with_selectors sampleNet "http://s/p1" [] none none).2 =
      ["http://s/p1"] ∧
    ["http://s/p1"] ≠ ([] : List String) :=
  ⟨by decide, by decide, by decide⟩

/-- C8 (amended): for every call with an empty selector map (and a page
budget of at least one, the only case in which any page is processed), the
extraction never succeeds — but the failure is raised only after the first
page fetch is attempted: exactly the starting URL is fetched, and the call
fails with the fetch error when that fetch fails, with the empty-selector
error otherwise. -/
theorem empty_selectors_fails_after_first_fetch (net : Network)
    (url : String) (attribute_name : Option String)
    (pc : Option PaginationConfig)
    (hpages : 1 ≤ effectiveMaxPages pc) :
    (extract_data_with_selectors net url [] attribute_name pc).2 = [url] ∧
    ((net url = none ∧
      (extract_data_with_selectors net url [] attribute_name pc).1 =
        .error (.fetchError url)) ∨
     (∃ soup, net url = some soup ∧
      (extract_data_with_selectors net url [] attribute_name pc).1 =
        .error .emptySelectors)) := by
  obtain ⟨k, hk⟩ : ∃ k, effectiveMaxPages pc = k + 1 := by
    cases hm : effectiveMaxPages pc with
    | zero => omega
    | succ k => exact ⟨k, rfl⟩
  unfold extract_data_with_selectors
  rw [hk, extractLoop_succ]
  cases hnet : net url with
  | none =>
    have hps : pageStep net [] attribute_name pc url =
        .error (.fetchError url) := by
      rw [pageStep_empty_selectors, hnet]
    rw [hps]
    exact ⟨rfl, Or.inl ⟨rfl, rfl⟩⟩
  | some soup =>
    have hps : pageStep net [] attribute_name pc url =
        .error .emptySelectors := by
      rw [pageStep_empty_selectors, hnet]
    rw [hps]
    exact ⟨rfl, Or.inr ⟨soup, rfl, rfl⟩⟩

/-- C8 witness: on the sample site, one page budget, the empty-map call
fetches exactly the starting URL. -/
theorem empty_selectors_fails_after_first_fetch_witness :
    (extract_data_with_selectors sampleNet "http://s/p1" [] none none).2 =
      ["http://s/p1"] :=
  (empty_selectors_fails_after_first_fetch sampleNet "http://s/p1" none none
    (by decide)).1

/-- C9: with a non-empty selector map, page processing always succeeds —
a field selector matching nothing never raises an error (first conjunct) —
and a field whose selector matches no elements on the page degrades to the
empty-string value in every assembled row (second conjunct). -/
theorem missing_selector_tolerated (soup : Doc)
    (selectors : List (String × String)) (attribute_name : Option String)
    (hne : selectors ≠ []) :
    (∃ rows, processPage soup selectors attribute_name = some rows) ∧
    (∀ (fn sel : String) (rows : List Row) (row : Row),
      (selectors.map Prod.fst).Nodup → (fn, sel) ∈ selectors →
      soup sel = [] →
      processPage soup selectors attribute_name = some rows → row ∈ rows →
      List.lookup fn row = some "") := by
  refine ⟨processPage_isSome soup attribute_name hne, ?_⟩
  intro fn sel rows row hnd hmem hnone hpp hrow
  rcases mem_of_processPage hpp hrow with ⟨⟨i, rfl⟩, _⟩
  rw [buildItemRow_lookup soup attribute_name i selectors fn sel hnd hmem]
  unfold fieldValueAt
  rw [hnone]
  simp

/-- C9 witness: the "z" selector matches nothing on the sample page, yet
processing succeeds and the "z" field of the first returned row is the
empty string. -/
theorem missing_selector_tolerated_witness :
    List.lookup "z" [("t", "A"), ("z", "")] = some "" :=
  (missing_selector_tolerated sampleDoc [("t", "t"), ("z", "z")] none
      (by decide)).2 "z" "z"
    [[("t", "A"), ("z", "")], [("t", "B"), ("z", "")]]
    [("t", "A"), ("z", "")] (by decide) (by decide) rfl (by decide)
    (by decide)

/-- C10: when an attribute name is supplied (a non-empty name) and the
matched element does not carry that attribute, the extracted value is the
empty string, with no error (first conjunct); at the row level such a field
is indistinguishable from one whose selector matched no element at that
index — both yield the empty-string value (second conjunct); and it counts
as empty for empty-row suppression: every returned row has some non-empty
value (third conjunct). -/
theorem missing_attribute_is_empty (a : String) (ha : a ≠ "") :
    (∀ e : Element, e.attrs.lookup a = none →
      extractValue (some a) e = "") ∧
    (∀ (soup : Doc) (selectors : List (String × String)) (i : Nat)
        (fn sel : String),
      (selectors.map Prod.fst).Nodup → (fn, sel) ∈ selectors →
      (∀ e, (soup sel)[i]? = some e → e.attrs.lookup a = none) →
      List.lookup fn (buildItemRow soup selectors (some a) i) = some "") ∧
    (∀ (soup : Doc) (selectors : List (String × String)) (rows : List Row)
        (row : Row),
      processPage soup selectors (some a) = some rows → row ∈ rows →
      anyNonEmpty row = true) := by
  have hae : a.isEmpty = false := by
    cases hh : a.isEmpty with
    | false => rfl
    | true => exact absurd ((String.isEmpty_iff a).1 hh) ha
  have hval : ∀ e : Element, e.attrs.lookup a = none →
      extractValue (some a) e = "" := by
    intro e h
    simp [extractValue, Element.get, hae, h]
  refine ⟨hval, ?_, ?_⟩
  · intro soup selectors i fn sel hnd hmem hmiss
    rw [buildItemRow_lookup soup (some a) i selectors fn sel hnd hmem]
    unfold fieldValueAt
    cases hg : (soup sel)[i]? with
    | none => rfl
    | some e =>
      show some (extractValue (some a) e) = some ""
      rw [hval e (hmiss e hg)]
  · intro soup selectors rows row hpp hrow
    exact (mem_of_processPage hpp hrow).2

/-- C10 witness: an element without the requested attribute extracts to the
empty string. -/
theorem missing_attribute_is_empty_witness :
    extractValue (some "href") ⟨"hello", []⟩ = "" :=
  (missing_attribute_is_empty "href" (by decide)).1 ⟨"hello", []⟩ rfl

end BiblioMovil

